import Mathlib

/- Shallow embedding of the audio-processing service
   (src/audio-processing-service/app.py): job records, the durable job
   store and in-memory index (association lists keyed by job id), the
   recovery pass run at startup, the separation job runner, progress
   updates, the status endpoint and the cache/cleanup operations.
   Timestamps and audio durations are modelled as exact rationals. -/

/-- A persisted job record (the JSON dict stored per job). Optional
fields model keys that may be absent from the Python dict. -/
structure JobRecord where
  jobId : String
  status : String
  progress : Int
  message : Option String
  created_at : ℚ
  completed_at : Option ℚ
  filename : Option String
  tracks : List (String × String)
  bpm : Option Int
  duration : Option ℚ
  error : Option String
  deriving Repr, DecidableEq

/-- Association-list lookup, modelling a Python dict lookup by job id
(`jobs.get(job_id)` / reading a JSON file by id). -/
def findJob : List (String × JobRecord) → String → Option JobRecord
  | [], _ => none
  | (k, v) :: rest, i => if k = i then some v else findJob rest i

/-- Association-list update, modelling Python dict assignment
(`jobs[job_id] = data`) and the per-job file overwrite of the durable
store (`save_job_to_disk`). -/
def putJob : List (String × JobRecord) → String → JobRecord → List (String × JobRecord)
  | [], k, v => [(k, v)]
  | (k', v') :: rest, k, v =>
    if k' = k then (k, v) :: rest else (k', v') :: putJob rest k v

theorem findJob_putJob (l : List (String × JobRecord)) (k i : String) (v : JobRecord) :
    findJob (putJob l k v) i = if i = k then some v else findJob l i := by
  induction l with
  | nil =>
    by_cases hi : i = k
    · subst hi; simp [putJob, findJob]
    · have hi' : ¬ k = i := fun h => hi h.symm
      simp [putJob, findJob, hi, hi']
  | cons hd tl ih =>
    obtain ⟨k', v'⟩ := hd
    by_cases hk : k' = k
    · subst hk
      by_cases hi : i = k'
      · subst hi; simp [putJob, findJob]
      · have hi' : ¬ k' = i := fun h => hi h.symm
        simp [putJob, findJob, hi, hi']
    · by_cases hi : i = k'
      · subst hi
        have hik : ¬ i = k := fun h => hk (h ▸ rfl)
        simp [putJob, findJob, hk, hik]
      · have hi' : ¬ k' = i := fun h => hi h.symm
        simp [putJob, findJob, hk, hi, hi', ih]

theorem findJob_map (f : JobRecord → JobRecord) (l : List (String × JobRecord)) (i : String) :
    findJob (l.map (fun p => (p.1, f p.2))) i = (findJob l i).map f := by
  induction l with
  | nil => simp [findJob]
  | cons hd tl ih =>
    obtain ⟨k, v⟩ := hd
    by_cases hi : k = i <;> simp [findJob, hi, ih]

/-- Environment for `get_audio_duration`: results of the three probes the
code can run. `none` models the probe raising (or, for ffprobe, a
nonzero return code / parse failure). -/
structure AudioEnv where
  metaDuration : Option ℚ
  sampleDuration : Option ℚ
  ffprobeDuration : Option ℚ
  deriving Repr, DecidableEq

/-- Fallback tail of `get_audio_duration` (app.py lines 181-198): try the
ffprobe command-line probe, otherwise return the fixed default 180 s. -/
def ffprobeFallback (env : AudioEnv) : ℚ :=
  match env.ffprobeDuration with
  | some d => d
  | none => 180

/-- `get_audio_duration` (app.py lines 156-198). Method 1 reads container
metadata; if the reported value exceeds the 1800 s sanity ceiling the
sample-count method is run and the shorter value is used; any exception
falls through to the ffprobe probe and then the 180 s default. -/
def get_audio_duration (env : AudioEnv) : ℚ :=
  match env.metaDuration with
  | none => ffprobeFallback env
  | some d =>
    if d > 1800 then
      match env.sampleDuration with
      | none => ffprobeFallback env
      | some c => if c < d then c else d
    else d

example : get_audio_duration { metaDuration := some 2000, sampleDuration := some 150, ffprobeDuration := none } = 150 := by decide
example : get_audio_duration { metaDuration := none, sampleDuration := none, ffprobeDuration := none } = 180 := by decide

/-- Character-list test that `needle` is a prefix of `hay` (executable
model of Python `str.startswith`). -/
def charsStartWith : List Char → List Char → Bool
  | [], _ => true
  | _ :: _, [] => false
  | c :: cs, d :: ds => c == d && charsStartWith cs ds

/-- Strips `needle` from the front of a character list, returning the
remaining characters when it is a prefix. -/
def stripChars : List Char → List Char → Option (List Char)
  | [], l => some l
  | _ :: _, [] => none
  | c :: cs, d :: ds => if c == d then stripChars cs ds else none

/-- Character-list substring test (executable model of Python
`needle in hay`). -/
def charsContain (needle : List Char) : List Char → Bool
  | [] => charsStartWith needle []
  | d :: ds => charsStartWith needle (d :: ds) || charsContain needle ds

/-- Python `str.startswith` on strings. -/
def strStartsWith (s needle : String) : Bool :=
  charsStartWith needle.toList s.toList

/-- Python `needle in hay` on strings. -/
def strContains (hay needle : String) : Bool :=
  charsContain needle.toList hay.toList

/-- Fueled worker for `strReplace`; the fuel (the input length) only
matters for an empty needle, which never occurs in the code. -/
def replaceAux (needle repl : List Char) : Nat → List Char → List Char
  | _, [] => []
  | 0, l => l
  | fuel + 1, c :: cs =>
    match stripChars needle (c :: cs) with
    | some rest => repl ++ replaceAux needle repl fuel rest
    | none => c :: replaceAux needle repl fuel cs

/-- Python `str.replace`: replaces every non-overlapping occurrence of
`needle`, left to right. -/
def strReplace (s needle repl : String) : String :=
  ⟨replaceAux needle.toList repl.toList s.toList.length s.toList⟩

example : strReplace "http://x.railway.app" "http://" "https://" = "https://x.railway.app" := by decide
example : strStartsWith "http://x" "http://" = true := by decide
example : strContains "http://x.railway.app/y" "railway.app" = true := by decide

/-- A directory tree, modelling the contents of the job output directory
on disk. Children are listed in iteration order. -/
inductive FSTree where
  | file : FSTree
  | dir : List (String × FSTree) → FSTree

/-- Looks a name up among the children of a directory. -/
def lookupChild : List (String × FSTree) → String → Option FSTree
  | [], _ => none
  | (name, t) :: rest, n => if name = n then some t else lookupChild rest n

/-- Follows a relative path through a tree. -/
def findPath : List String → FSTree → Option FSTree
  | [], t => some t
  | _ :: _, .file => none
  | n :: rest, .dir cs =>
    match lookupChild cs n with
    | some c => findPath rest c
    | none => none

/-- Python `Path.exists()` relative to the tree root. -/
def pathExists (p : List String) (t : FSTree) : Bool :=
  (findPath p t).isSome

/-- Names of the subdirectories of a directory, in iteration order
(the list comprehension `[d for d in x.iterdir() if d.is_dir()]`). -/
def childDirs (cs : List (String × FSTree)) : List String :=
  cs.filterMap (fun p => match p.2 with | .dir _ => some p.1 | .file => none)

/-- The model directory names probed by the fallback scan
(app.py line 426). -/
def modelDirNames : List String := ["htdemucs_6s", "htdemucs", "mdx_extra", "demucs"]

/-- The alternative-directory scan (app.py lines 426-434): the first
candidate that exists as a directory and has at least one subdirectory
wins, and its first subdirectory is used; a candidate existing as a
plain file makes `iterdir` raise, failing the job (`none`); if no
candidate matches, `separated_dir` keeps its nominal value. -/
def scanAlts (root : FSTree) (nominal : List String) : List String → Option (List String)
  | [] => some nominal
  | name :: rest =>
    match findPath [name] root with
    | some (.dir cs) =>
      match childDirs cs with
      | d :: _ => some [name, d]
      | [] => scanAlts root nominal rest
    | some .file => none
    | none => scanAlts root nominal rest

/-- The final existence check closing the resolution (app.py line 436):
the chosen directory must exist, otherwise the job fails; a `none`
candidate records an exception already raised during resolution. -/
def finalizeSep (root : FSTree) : Option (List String) → Option (List String)
  | none => none
  | some p => if pathExists p root then some p else none

/-- Output-directory resolution (app.py lines 400-437): start from the
nominal path `htdemucs_6s/<input stem>`; if absent and the model root
exists as a directory, take its first subdirectory, if any; if the model
root is missing, run the alternative scan; finally the job fails
(`none`) unless the chosen directory exists. -/
def resolveSeparatedDir (inputName : String) (root : FSTree) : Option (List String) :=
  let nominal := ["htdemucs_6s", inputName]
  finalizeSep root
    (if pathExists nominal root then some nominal
     else
       match findPath ["htdemucs_6s"] root with
       | some (.dir cs) =>
         match childDirs cs with
         | d :: _ => some ["htdemucs_6s", d]
         | [] => some nominal
       | some .file => none
       | none => scanAlts root nominal modelDirNames)

/-- The alternative scan as worded by the specification claim: the first
candidate with exactly one subdirectory is used. -/
def altScanSpec (root : FSTree) : List String → Option (List String)
  | [] => none
  | name :: rest =>
    match findPath [name] root with
    | some (.dir cs) =>
      match childDirs cs with
      | [d] => some [name, d]
      | _ => altScanSpec root rest
    | _ => altScanSpec root rest

/-- Modelled from the spec claim wording, for comparison: nominal path,
then the single subdirectory of the model root, then the first
alternative model directory with exactly one subdirectory. -/
def resolveSpecC5 (inputName : String) (root : FSTree) : Option (List String) :=
  if pathExists ["htdemucs_6s", inputName] root then some ["htdemucs_6s", inputName]
  else
    match findPath ["htdemucs_6s"] root with
    | some (.dir cs) =>
      match childDirs cs with
      | [d] => some ["htdemucs_6s", d]
      | _ => none
    | some .file => none
    | none => altScanSpec root modelDirNames

/-- The alternative scan as worded by the amended claim: the first
candidate directory with at least one subdirectory wins and its first
subdirectory is used. -/
def altScanAmended (root : FSTree) : List String → Option (List String)
  | [] => none
  | name :: rest =>
    match findPath [name] root with
    | some (.dir cs) =>
      match childDirs cs with
      | d :: _ => some [name, d]
      | [] => altScanAmended root rest
    | some .file => none
    | none => altScanAmended root rest

/-- The amended resolution algorithm, written from the corrected claim
wording: nominal path; else the first subdirectory of the model root;
else, when the model root is missing, the first alternative model
directory with at least one subdirectory; otherwise failure. -/
def resolveAmendedC5 (inputName : String) (root : FSTree) : Option (List String) :=
  if pathExists ["htdemucs_6s", inputName] root then some ["htdemucs_6s", inputName]
  else
    match findPath ["htdemucs_6s"] root with
    | some (.dir cs) =>
      match childDirs cs with
      | d :: _ => some ["htdemucs_6s", d]
      | [] => none
    | some .file => none
    | none => altScanAmended root modelDirNames

/-- The fixed stem mapping of the htdemucs_6s model (app.py lines
442-449), in iteration order: output file name to logical track name. -/
def track_mapping : List (String × String) :=
  [("vocals.mp3", "vocals"), ("drums.mp3", "drums"), ("bass.mp3", "bass"),
   ("guitar.mp3", "guitar"), ("piano.mp3", "piano"), ("other.mp3", "other")]

/-- The HTTPS upgrade applied to the configured backend URL when it
targets a Railway host over plain HTTP (app.py lines 460-463). -/
def rewriteBackendUrl (backendUrl : String) : String :=
  if strContains backendUrl "railway.app" && strStartsWith backendUrl "http://" then
    strReplace backendUrl "http://" "https://"
  else backendUrl

/-- The retrieval URL generated for one produced stem (app.py line 466). -/
def mkTrackUrl (backendUrl jobId demucsFile : String) : String :=
  backendUrl ++ "/api/tracks/" ++ jobId ++ "/" ++ demucsFile

/-- The configured backend URL with its default
(`os.getenv` with fallback, app.py line 457). -/
def backendBase : Option String → String
  | some u => u
  | none => "http://localhost:3001"

/-- The tracks mapping built for a job (app.py lines 451-467): each stem
file that exists inside the resolved directory contributes its logical
name and a retrieval URL; missing stems are silently skipped. -/
def buildTracks (backendUrl jobId : String) (root : FSTree) (sepDir : List String) :
    List (String × String) :=
  track_mapping.filterMap (fun p =>
    if pathExists (sepDir ++ [p.1]) root then some (p.2, mkTrackUrl backendUrl jobId p.1)
    else none)

/-- Timeout for the external separation process (app.py lines 376-385):
180 s per second of audio, floor 600 s, and a cap to 1800 s applied only
when the computed value exceeds 3600 s. -/
def timeoutSeconds (duration : ℚ) : ℚ :=
  let t := max (duration * 180) 600
  if t > 3600 then 1800 else t

/-- The error string raised on timeout (app.py line 393); the numeric
formatting of the Python float is abstracted by the rational rendering. -/
def timeoutErrMsg (t : ℚ) : String :=
  "Audio separation timed out after " ++ toString t ++
    " seconds. The htdemucs_6s model requires significant processing time for high-quality 6-track separation."

/-- The terminal update applied by the top-level exception handler of the
job runner (app.py lines 506-516). -/
def failedAt (j : JobRecord) (now : ℚ) (err : String) : JobRecord :=
  { j with
    status := "failed",
    error := some err,
    message := some ("Processing failed: " ++ err),
    completed_at := some now }

/-- The status write entering `processing` (app.py lines 257-258). -/
def markProcessing (j : JobRecord) : JobRecord :=
  { j with status := "processing" }

/-- Outcome of waiting on the external separation process: either the
computed timeout expired, or the process exited with a code and an error
stream. -/
inductive ProcOutcome where
  | timedOut : ProcOutcome
  | exited : Int → String → ProcOutcome
  deriving Repr, DecidableEq

/-- Environment of one run of the separation job runner: the audio
analysis results, whether launching the child process raised (with the
underlying message), the wait outcome, the output directory contents
after the run, the configured backend URL, and the best-effort BPM
estimate (`detect_bpm` is total and returns `none` on failure). -/
structure ProcEnv where
  audio : AudioEnv
  launchFailure : Option String
  outcome : ProcOutcome
  fs : FSTree
  backendUrl : Option String
  bpm : Option Int

/-- The separation job runner `separate_audio` (app.py lines 252-516),
as the final record it leaves for the job together with a flag recording
whether the child process was killed. Progress/message writes along the
main thread are folded into the record; the simulated-progress side
thread is modelled separately through `update_progress`. The error text
of the missing-output branch elides the interpolated path. -/
def separate_audio (env : ProcEnv) (jobId inputName : String) (j0 : JobRecord) (now : ℚ) :
    JobRecord × Bool :=
  let j5 := { j0 with progress := 5, message := some "Initializing..." }
  let jp := markProcessing j5
  let j10 := { jp with progress := 10, message := some "Analyzing audio file..." }
  let duration := get_audio_duration env.audio
  let j15 := { j10 with progress := 15, message := some "Preparing separation..." }
  let j20 := { j15 with progress := 20, message := some "Starting audio separation..." }
  match env.launchFailure with
  | some e => (failedAt j20 now ("Demucs initialization failed: " ++ e), false)
  | none =>
    let t := timeoutSeconds duration
    match env.outcome with
    | .timedOut => (failedAt j20 now (timeoutErrMsg t), true)
    | .exited code stderr =>
      if code ≠ 0 then (failedAt j20 now ("Demucs failed: " ++ stderr), false)
      else
        let j85 := { j20 with progress := 85, message := some "Processing completed, organizing files..." }
        match resolveSeparatedDir inputName env.fs with
        | none => (failedAt j85 now "Separated files not found", false)
        | some sepDir =>
          let backendUrl := rewriteBackendUrl (backendBase env.backendUrl)
          let tracks := buildTracks backendUrl jobId env.fs sepDir
          let j90 := { j85 with progress := 90, message := some "Detecting BPM..." }
          let j95 := { j90 with progress := 95, message := some "Finalizing..." }
          ({ j95 with
              status := "completed",
              progress := 100,
              tracks := tracks,
              bpm := env.bpm,
              duration := some duration,
              completed_at := some now,
              message := some "Separation completed successfully!" }, false)

/-- The per-record reclassification done while loading jobs at startup
(app.py lines 108-134): a record still `processing` is marked `failed`
with one of two error strings depending on its age in minutes. -/
def recoverJob (now : ℚ) (j : JobRecord) : JobRecord :=
  if j.status = "processing" then
    if (now - j.created_at) / 60 > 30 then
      { j with
        status := "failed",
        error := some "Processing interrupted by service restart (job was stuck)",
        message := some ("Job was stuck at " ++ toString j.progress ++
          "% and interrupted by service restart"),
        completed_at := some now }
    else
      { j with
        status := "failed",
        error := some "Processing interrupted by service restart",
        message := some "Job was interrupted when the service restarted",
        completed_at := some now }
  else j

/-- Startup recovery `load_all_jobs_from_disk` (app.py lines 81-147):
every persisted record is loaded into the index, reclassified when
`processing`, and reclassified records are written back to the store.
Returns the resulting (index, store) pair. -/
def load_all_jobs_from_disk (now : ℚ) (disk : List (String × JobRecord)) :
    List (String × JobRecord) × List (String × JobRecord) :=
  (disk.map (fun p => (p.1, recoverJob now p.2)),
   disk.map (fun p => (p.1, recoverJob now p.2)))

/-- Python truthiness of the optional `message` argument of
`update_progress` (`if message:`). -/
def msgTruthy : Option String → Bool
  | none => false
  | some m => m != ""

/-- `update_progress` (app.py lines 240-250) acting on the in-memory
index and the durable store: when the id is present in the index, its
progress (and, when truthy, message) are overwritten and the record is
persisted; otherwise nothing happens. -/
def update_progress (mem disk : List (String × JobRecord)) (i : String) (p : Int)
    (m : Option String) : List (String × JobRecord) × List (String × JobRecord) :=
  match findJob mem i with
  | some j =>
    let j' := { j with progress := p, message := if msgTruthy m then m else j.message }
    (putJob mem i j', putJob disk i j')
  | none => (mem, disk)

/-- Response of the status endpoint: 404 or the job record the JSON body
is built from. -/
inductive StatusResp where
  | notFound : StatusResp
  | ok : JobRecord → StatusResp
  deriving Repr, DecidableEq

/-- `get_job_status` (app.py lines 583-652): look in the index first; on
a miss consult the durable store and re-cache a hit; answer 404 only
when both miss. Returns the response and the updated index. -/
def get_job_status (mem disk : List (String × JobRecord)) (i : String) :
    StatusResp × List (String × JobRecord) :=
  match findJob mem i with
  | some j => (.ok j, mem)
  | none =>
    match findJob disk i with
    | some j => (.ok j, putJob mem i j)
    | none => (.notFound, mem)

/-- HTTP code of a status response (200 or 404). -/
def httpCode : StatusResp → Nat
  | .notFound => 404
  | .ok _ => 200

/-- The record a client effectively observes for an id: the index entry
if present, else the durable-store entry. -/
def effJob (mem disk : List (String × JobRecord)) (i : String) : Option JobRecord :=
  match findJob mem i with
  | some j => some j
  | none => findJob disk i

/-- Status of the record an association list holds for an id. -/
def statusAt (l : List (String × JobRecord)) (i : String) : Option String :=
  (findJob l i).map JobRecord.status

/-- Whole-service state for the deletion operations: index, durable
store, and the names in the uploads, separated-output and temp folders. -/
structure ServiceState where
  mem : List (String × JobRecord)
  disk : List (String × JobRecord)
  uploads : List String
  outputs : List String
  temp : List String
  deriving Repr, DecidableEq

/-- `clear_cache` (app.py lines 855-894): empties the in-memory index and
deletes every entry of the uploads, output and temp folders; the durable
job store (the JSON files under the jobs folder) is not touched. -/
def clear_cache (s : ServiceState) : ServiceState :=
  { s with mem := [], uploads := [], outputs := [], temp := [] }

/-- `clear_disk_jobs` (app.py lines 928-971): empties the in-memory index
and deletes every JSON file of the durable job store. -/
def clear_disk_jobs (s : ServiceState) : ServiceState :=
  { s with mem := [], disk := [] }

/-- `cleanup_old_files` (app.py lines 1034-1062): jobs whose `created_at`
is older than 24 hours are removed from the in-memory index, and entries
of the uploads and output folders whose name starts with such a job id
are deleted; the durable store and the temp folder are untouched. -/
def cleanup_old_files (now : ℚ) (s : ServiceState) : ServiceState :=
  let cutoff := now - 24 * 60 * 60
  let oldIds := (s.mem.filter (fun p => decide (p.2.created_at < cutoff))).map Prod.fst
  { s with
    mem := s.mem.filter (fun p => !(decide (p.2.created_at < cutoff))),
    uploads := s.uploads.filter (fun f => !(oldIds.any (fun i => strStartsWith f i))),
    outputs := s.outputs.filter (fun f => !(oldIds.any (fun i => strStartsWith f i))) }

/-- The allowed status moves of the claimed state machine:
stay, `pending` to `processing`, or `processing` to a terminal state. -/
def stepOk (s s' : String) : Prop :=
  s' = s ∨ (s = "pending" ∧ s' = "processing") ∨
    (s = "processing" ∧ (s' = "completed" ∨ s' = "failed"))

/-- The record created at submission (app.py lines 554-561). -/
def newJobRecord (jobId : String) (now : ℚ) (filename : String) : JobRecord :=
  { jobId := jobId
    status := "pending"
    progress := 0
    message := none
    created_at := now
    completed_at := none
    filename := some filename
    tracks := []
    bpm := none
    duration := none
    error := none }

/-- Analysis environment of a well-behaved 15-second input. -/
def audioEnvA : AudioEnv :=
  { metaDuration := some 15, sampleDuration := some 15, ffprobeDuration := none }

/-- Output tree of a successful run: the nominal directory exists and
holds one stem file. -/
def fsA : FSTree :=
  .dir [("htdemucs_6s", .dir [("song", .dir [("vocals.mp3", .file)])])]

/-- Runner environment of a fully successful job. -/
def envA : ProcEnv :=
  { audio := audioEnvA
    launchFailure := none
    outcome := .exited 0 ""
    fs := fsA
    backendUrl := none
    bpm := none }

/-- Runner environment whose external process hits the timeout. -/
def envTimeout : ProcEnv :=
  { envA with outcome := .timedOut }

/-- Output tree whose nominal directory exists but holds no stem file. -/
def fsNoTracks : FSTree :=
  .dir [("htdemucs_6s", .dir [("song", .dir [])])]

/-- Runner environment of a run that succeeds but produced no stem
files. -/
def envNoTracks : ProcEnv :=
  { envA with fs := fsNoTracks }

/-- Output tree where only the alternative model directory `htdemucs`
exists, holding two subdirectories. -/
def fsTwoSubdirs : FSTree :=
  .dir [("htdemucs", .dir [("songA", .dir []), ("songB", .dir [])])]

/-- Empty output tree: nothing to resolve. -/
def fsNoOutput : FSTree := .dir []

/-- Runner environment whose process exits cleanly but left no output. -/
def envNoOutput : ProcEnv :=
  { envA with fs := fsNoOutput }

/-- A record caught mid-`processing`, created at epoch 0. -/
def recProcessing : JobRecord :=
  { newJobRecord "j1" 0 "song.mp3" with status := "processing", progress := 40 }

/-- A terminal completed record. -/
def recCompleted : JobRecord :=
  { newJobRecord "j2" 0 "song.mp3" with
    status := "completed"
    progress := 100
    tracks := [("vocals", "u")]
    completed_at := some 50 }

/-- A record younger than the retention horizon at time 200000. -/
def youngRec : JobRecord :=
  { newJobRecord "jY" 150000 "y.mp3" with status := "completed" }

/-- Service state with a completed job present in index, store and
folders. -/
def stateC9 : ServiceState :=
  { mem := [("j2", recCompleted)]
    disk := [("j2", recCompleted)]
    uploads := ["j2_song.mp3"]
    outputs := ["j2"]
    temp := [] }

/-- Service state holding one stale and one fresh job. -/
def stateMix : ServiceState :=
  { mem := [("j2", recCompleted), ("jY", youngRec)]
    disk := [("j2", recCompleted), ("jY", youngRec)]
    uploads := ["j2_song.mp3", "jY_y.mp3"]
    outputs := ["j2"]
    temp := [] }

/-- C6: duration estimation never raises and never fails the job: it is
a total function; when the metadata duration exceeds the 1800 s ceiling
and the sample-count method succeeds, the smaller of the two values is
returned; a sane metadata value is returned as is; when the library
methods raise, the ffprobe probe result is returned; and when that also
fails, the fixed default 180 is returned. -/
theorem duration_estimation_fallbacks (env : AudioEnv) :
    (∀ d c, env.metaDuration = some d → env.sampleDuration = some c → d > 1800 →
      get_audio_duration env = min c d) ∧
    (∀ d, env.metaDuration = some d → ¬ d > 1800 → get_audio_duration env = d) ∧
    (env.metaDuration = none →
      get_audio_duration env = env.ffprobeDuration.getD 180) ∧
    (∀ d, env.metaDuration = some d → d > 1800 → env.sampleDuration = none →
      get_audio_duration env = env.ffprobeDuration.getD 180) ∧
    (env.metaDuration = none → env.ffprobeDuration = none →
      get_audio_duration env = 180) := by
  obtain ⟨md, sd, fd⟩ := env
  refine ⟨?_, ?_, ?_, ?_, ?_⟩
  · rintro d c hd hc hgt
    cases hd; cases hc
    rcases lt_or_le c d with h | h
    · simp [get_audio_duration, hgt, h, min_eq_left h.le]
    · simp [get_audio_duration, hgt, not_lt.mpr h, min_eq_right h]
  · rintro d hd hle
    cases hd
    simp [get_audio_duration, hle]
  · rintro rfl
    cases fd <;> simp [get_audio_duration, ffprobeFallback]
  · rintro d hd hgt hs
    cases hd; cases hs
    cases fd <;> simp [get_audio_duration, hgt, ffprobeFallback]
  · rintro rfl rfl
    simp [get_audio_duration, ffprobeFallback]

/-- Witness for C6 at a concrete environment with an inflated metadata
duration. -/
theorem duration_estimation_fallbacks_witness :
    get_audio_duration
      { metaDuration := some 2000, sampleDuration := some 150, ffprobeDuration := none } =
      min 150 2000 :=
  (duration_estimation_fallbacks _).1 2000 150 rfl rfl (by norm_num)

/-- C10: a progress update for a job id absent from the in-memory index
is a harmless no-op: it never raises (the function is total), creates no
record, and leaves both the index and the durable store unchanged. -/
theorem update_progress_unknown_id_noop (mem disk : List (String × JobRecord))
    (i : String) (p : Int) (m : Option String) (h : findJob mem i = none) :
    update_progress mem disk i p m = (mem, disk) := by
  simp [update_progress, h]

/-- Witness for C10 on an empty index. -/
theorem update_progress_unknown_id_noop_witness :
    update_progress [] [("j1", recProcessing)] "ghost" 50 (some "x") =
      ([], [("j1", recProcessing)]) :=
  update_progress_unknown_id_noop [] [("j1", recProcessing)] "ghost" 50 (some "x") rfl

/-- C8: the status endpoint answers 404 exactly when the id is absent
from both the in-memory index and the durable store; an index miss
always falls back to the store, and a record found only on disk is
returned and re-cached into the index. -/
theorem status_lookup_falls_back_to_disk (mem disk : List (String × JobRecord)) (i : String) :
    ((get_job_status mem disk i).1 = .notFound ↔
      findJob mem i = none ∧ findJob disk i = none) ∧
    (httpCode (get_job_status mem disk i).1 = 404 ↔
      findJob mem i = none ∧ findJob disk i = none) ∧
    (∀ j, findJob mem i = none → findJob disk i = some j →
      (get_job_status mem disk i).1 = .ok j ∧
      findJob (get_job_status mem disk i).2 i = some j) := by
  refine ⟨?_, ?_, ?_⟩
  · cases hm : findJob mem i with
    | some j => simp [get_job_status, hm]
    | none =>
      cases hd : findJob disk i with
      | some j => simp [get_job_status, hm, hd]
      | none => simp [get_job_status, hm, hd]
  · cases hm : findJob mem i with
    | some j => simp [get_job_status, hm, httpCode]
    | none =>
      cases hd : findJob disk i with
      | some j => simp [get_job_status, hm, hd, httpCode]
      | none => simp [get_job_status, hm, hd, httpCode]
  · rintro j hm hd
    simp [get_job_status, hm, hd, findJob_putJob]

/-- Witness for C8: a job present only in the durable store is served
and re-cached. -/
theorem status_lookup_falls_back_to_disk_witness :
    (get_job_status [] [("j1", recProcessing)] "j1").1 = .ok recProcessing ∧
    findJob (get_job_status [] [("j1", recProcessing)] "j1").2 "j1" = some recProcessing :=
  (status_lookup_falls_back_to_disk [] [("j1", recProcessing)] "j1").2.2
    recProcessing rfl rfl

/-- Evaluation of `recoverJob` on an old `processing` record. -/
theorem recoverJob_processing_old (now : ℚ) (j : JobRecord)
    (hs : j.status = "processing") (h : (now - j.created_at) / 60 > 30) :
    recoverJob now j =
      { j with
        status := "failed",
        error := some "Processing interrupted by service restart (job was stuck)",
        message := some ("Job was stuck at " ++ toString j.progress ++
          "% and interrupted by service restart"),
        completed_at := some now } := by
  simp [recoverJob, hs, h]

/-- Evaluation of `recoverJob` on a recent `processing` record. -/
theorem recoverJob_processing_recent (now : ℚ) (j : JobRecord)
    (hs : j.status = "processing") (h : ¬ (now - j.created_at) / 60 > 30) :
    recoverJob now j =
      { j with
        status := "failed",
        error := some "Processing interrupted by service restart",
        message := some "Job was interrupted when the service restarted",
        completed_at := some now } := by
  simp [recoverJob, hs, h]

/-- C1 counterexample: recovery of a 45-minute-old `processing` record
does mark it failed, but the error string the code writes is
`Processing interrupted by service restart (job was stuck)`, not the
string `stuck job interrupted by restart` the claim quotes; likewise the
recent variant differs from `interrupted by service restart`. -/
theorem recovery_error_string_counterexample :
    (recoverJob 2700 recProcessing).status = "failed" ∧
    (recoverJob 2700 recProcessing).error =
      some "Processing interrupted by service restart (job was stuck)" ∧
    (recoverJob 2700 recProcessing).error ≠ some "stuck job interrupted by restart" ∧
    (recoverJob 300 recProcessing).error ≠ some "interrupted by service restart" := by
  have e45 := recoverJob_processing_old 2700 recProcessing rfl
    (by norm_num [recProcessing, newJobRecord])
  have e5 := recoverJob_processing_recent 300 recProcessing rfl
    (by norm_num [recProcessing, newJobRecord])
  refine ⟨?_, ?_, ?_, ?_⟩
  · rw [e45]
  · rw [e45]
  · rw [e45]; decide
  · rw [e5]; decide

/-- C1 amended: on startup load, every persisted `processing` record is
reclassified to `failed` in both index and store, with
`completedAt = now`; when its age exceeds 30 minutes the error is
`Processing interrupted by service restart (job was stuck)`, otherwise
`Processing interrupted by service restart`. -/
theorem recovery_reclassifies_processing_jobs (now : ℚ)
    (disk : List (String × JobRecord)) (i : String) (j : JobRecord)
    (hfind : findJob disk i = some j) (hstatus : j.status = "processing") :
    findJob (load_all_jobs_from_disk now disk).1 i = some (recoverJob now j) ∧
    findJob (load_all_jobs_from_disk now disk).2 i = some (recoverJob now j) ∧
    (recoverJob now j).status = "failed" ∧
    (recoverJob now j).completed_at = some now ∧
    ((now - j.created_at) / 60 > 30 →
      (recoverJob now j).error =
        some "Processing interrupted by service restart (job was stuck)") ∧
    (¬ (now - j.created_at) / 60 > 30 →
      (recoverJob now j).error = some "Processing interrupted by service restart") := by
  refine ⟨?_, ?_, ?_, ?_, ?_, ?_⟩
  · rw [load_all_jobs_from_disk]
    simp [findJob_map, hfind]
  · rw [load_all_jobs_from_disk]
    simp [findJob_map, hfind]
  · by_cases hage : (now - j.created_at) / 60 > 30
    · rw [recoverJob_processing_old now j hstatus hage]
    · rw [recoverJob_processing_recent now j hstatus hage]
  · by_cases hage : (now - j.created_at) / 60 > 30
    · rw [recoverJob_processing_old now j hstatus hage]
    · rw [recoverJob_processing_recent now j hstatus hage]
  · intro hage
    rw [recoverJob_processing_old now j hstatus hage]
  · intro hage
    rw [recoverJob_processing_recent now j hstatus hage]

/-- Witness for C1 (amended) at a 45-minute-old and a 5-minute-old
record. -/
theorem recovery_reclassifies_processing_jobs_witness :
    (recoverJob 2700 recProcessing).status = "failed" ∧
    (recoverJob 2700 recProcessing).error =
      some "Processing interrupted by service restart (job was stuck)" ∧
    (recoverJob 300 recProcessing).error =
      some "Processing interrupted by service restart" := by
  have h45 := recovery_reclassifies_processing_jobs 2700 [("j1", recProcessing)] "j1"
    recProcessing rfl rfl
  have h5 := recovery_reclassifies_processing_jobs 300 [("j1", recProcessing)] "j1"
    recProcessing rfl rfl
  refine ⟨h45.2.2.1, h45.2.2.2.2.1 (by norm_num [recProcessing, newJobRecord]),
    h5.2.2.2.2.2 (by norm_num [recProcessing, newJobRecord])⟩

/-- C7 counterexample: the progress-update helper guards only on index
membership, so invoked on a completed record it overwrites its progress
and message: the terminal record is mutated. -/
theorem terminal_record_progress_overwrite_counterexample :
    recCompleted.status = "completed" ∧
    findJob
      (update_progress [("j2", recCompleted)] [("j2", recCompleted)]
        "j2" 57 (some "Separating drums...")).1 "j2" =
      some { recCompleted with progress := 57, message := some "Separating drums..." } ∧
    findJob
      (update_progress [("j2", recCompleted)] [("j2", recCompleted)]
        "j2" 57 (some "Separating drums...")).1 "j2" ≠ some recCompleted := by
  refine ⟨?_, ?_, ?_⟩ <;> decide

/-- C7 amended: status polling never mutates any record (the effective
record of every id is unchanged and repeated polls return the identical
response), recovery leaves terminal records untouched, but the
progress-update helper, which checks only index membership and not
status, overwrites progress and message of whatever record the id names,
leaving status, tracks, error, creation and completion times, duration
and bpm unchanged. -/
theorem terminal_record_mutation_characterization :
    (∀ mem disk i i', effJob (get_job_status mem disk i).2 disk i' = effJob mem disk i') ∧
    (∀ mem disk i j, effJob mem disk i = some j → (get_job_status mem disk i).1 = .ok j) ∧
    (∀ mem disk i,
      (get_job_status (get_job_status mem disk i).2 disk i).1 =
        (get_job_status mem disk i).1) ∧
    (∀ mem disk i p m i' j, findJob mem i' = some j →
      ∃ j', findJob (update_progress mem disk i p m).1 i' = some j' ∧
        j'.status = j.status ∧ j'.error = j.error ∧ j'.tracks = j.tracks ∧
        j'.completed_at = j.completed_at ∧ j'.created_at = j.created_at ∧
        j'.duration = j.duration ∧ j'.bpm = j.bpm) ∧
    (∀ now j, j.status = "completed" ∨ j.status = "failed" → recoverJob now j = j) := by
  refine ⟨?_, ?_, ?_, ?_, ?_⟩
  · intro mem disk i i'
    cases hm : findJob mem i with
    | some j => simp [get_job_status, hm]
    | none =>
      cases hd : findJob disk i with
      | none => simp [get_job_status, hm, hd]
      | some j =>
        simp only [get_job_status, hm, hd]
        by_cases hii : i' = i
        · subst hii
          simp [effJob, findJob_putJob, hm, hd]
        · simp [effJob, findJob_putJob, hii]
  · intro mem disk i j hj
    cases hm : findJob mem i with
    | some j0 =>
      have : some j0 = some j := by rw [← hj]; simp [effJob, hm]
      cases this
      simp [get_job_status, hm]
    | none =>
      have hd : findJob disk i = some j := by rw [← hj]; simp [effJob, hm]
      simp [get_job_status, hm, hd]
  · intro mem disk i
    cases hm : findJob mem i with
    | some j => simp [get_job_status, hm]
    | none =>
      cases hd : findJob disk i with
      | none => simp [get_job_status, hm, hd]
      | some j => simp [get_job_status, hm, hd, findJob_putJob]
  · intro mem disk i p m i' j hj
    cases hm : findJob mem i with
    | none =>
      exact ⟨j, by simp [update_progress, hm, hj], rfl, rfl, rfl, rfl, rfl, rfl, rfl⟩
    | some j0 =>
      by_cases hii : i' = i
      · subst hii
        have hjj : j0 = j := by rw [hm] at hj; cases hj; rfl
        subst hjj
        refine ⟨{ j0 with progress := p, message := if msgTruthy m then m else j0.message },
          ?_, rfl, rfl, rfl, rfl, rfl, rfl, rfl⟩
        simp [update_progress, hm, findJob_putJob]
      · exact ⟨j, by simp [update_progress, hm, findJob_putJob, hii, hj],
          rfl, rfl, rfl, rfl, rfl, rfl, rfl⟩
  · intro now j hj
    rcases hj with hj | hj <;> simp [recoverJob, hj]

/-- Witness for C7 (amended): recovery leaves a completed record
unchanged. -/
theorem terminal_record_mutation_characterization_witness :
    recoverJob 999 recCompleted = recCompleted :=
  terminal_record_mutation_characterization.2.2.2.2 999 recCompleted (Or.inl rfl)

/-- C9 counterexample: both deletion operations leave the durable store
untouched. Clearing the cache empties the index and the artifact
folders but the persisted record survives, and the retention sweep
removes a stale job from the index and its artifacts while the persisted
record likewise survives. -/
theorem deletion_leaves_durable_store_counterexample :
    (clear_cache stateC9).mem = [] ∧
    (clear_cache stateC9).uploads = [] ∧
    (clear_cache stateC9).disk = [("j2", recCompleted)] ∧
    (cleanup_old_files 200000 stateC9).mem = [] ∧
    (cleanup_old_files 200000 stateC9).uploads = [] ∧
    (cleanup_old_files 200000 stateC9).disk = [("j2", recCompleted)] := by
  refine ⟨rfl, rfl, rfl, ?_, ?_, rfl⟩ <;>
    norm_num [cleanup_old_files, stateC9, recCompleted, newJobRecord,
      List.filter, List.any, strStartsWith, charsStartWith]

/-- C9 amended: the explicit cache-clear purges all jobs from the
in-memory index and deletes all upload, output and temp artifacts but
leaves the durable store untouched (a separate disk-jobs-clear operation
purges the store); the 24-hour retention sweep removes stale records
from the in-memory index and deletes their upload and output artifacts,
likewise leaving the durable store and the temp folder untouched. -/
theorem deletion_scope_characterization :
    (∀ s : ServiceState, (clear_cache s).mem = [] ∧ (clear_cache s).uploads = [] ∧
      (clear_cache s).outputs = [] ∧ (clear_cache s).temp = [] ∧
      (clear_cache s).disk = s.disk) ∧
    (∀ s : ServiceState, (clear_disk_jobs s).mem = [] ∧ (clear_disk_jobs s).disk = []) ∧
    (∀ (now : ℚ) (s : ServiceState) (p : String × JobRecord),
      p ∈ (cleanup_old_files now s).mem → ¬ p.2.created_at < now - 24 * 60 * 60) ∧
    (∀ (now : ℚ) (s : ServiceState),
      (cleanup_old_files now s).disk = s.disk ∧ (cleanup_old_files now s).temp = s.temp) ∧
    (∀ (now : ℚ) (s : ServiceState) (f : String),
      f ∈ (cleanup_old_files now s).uploads ∨ f ∈ (cleanup_old_files now s).outputs →
      ∀ p ∈ s.mem, p.2.created_at < now - 24 * 60 * 60 →
        strStartsWith f p.1 = false) := by
  refine ⟨fun s => ⟨rfl, rfl, rfl, rfl, rfl⟩, fun s => ⟨rfl, rfl⟩, ?_, fun now s => ⟨rfl, rfl⟩, ?_⟩
  · intro now s p hp
    have hmem := (List.mem_filter.mp hp).2
    intro hlt
    rw [decide_eq_true hlt] at hmem
    simp at hmem
  · intro now s f hf p hp hold
    have hkeep : (((s.mem.filter (fun q => decide (q.2.created_at < now - 24 * 60 * 60))).map
        Prod.fst).any (fun i => strStartsWith f i)) = false := by
      rcases hf with hf | hf
      · have := (List.mem_filter.mp hf).2
        simpa using this
      · have := (List.mem_filter.mp hf).2
        simpa using this
    have hmemOld : p.1 ∈ (s.mem.filter
        (fun q => decide (q.2.created_at < now - 24 * 60 * 60))).map Prod.fst := by
      exact List.mem_map_of_mem Prod.fst (List.mem_filter.mpr ⟨hp, decide_eq_true hold⟩)
    by_contra hne
    have htrue : strStartsWith f p.1 = true := by
      cases h : strStartsWith f p.1 with
      | true => rfl
      | false => exact absurd h hne
    have := List.any_eq_true.mpr ⟨p.1, hmemOld, htrue⟩
    rw [hkeep] at this
    exact Bool.false_ne_true this

/-- Witness for C9 (amended): in a mixed state the fresh record survives
the sweep and is indeed younger than the horizon. -/
theorem deletion_scope_characterization_witness :
    ¬ (("jY", youngRec) : String × JobRecord).2.created_at < 200000 - 24 * 60 * 60 :=
  deletion_scope_characterization.2.2.1 200000 stateMix ("jY", youngRec)
    (by norm_num [cleanup_old_files, stateMix, recCompleted, youngRec, newJobRecord,
      List.filter])

/-- C4 counterexample: for a 15-second source the computed timeout is
2700 s, which exceeds the claimed 1800 s hard cap: the cap is only
applied when the computed value exceeds 3600 s. -/
theorem timeout_exceeds_cap_counterexample :
    timeoutSeconds 15 = 2700 ∧ (1800 : ℚ) < timeoutSeconds 15 := by
  have h : timeoutSeconds 15 = 2700 := by
    norm_num [timeoutSeconds, max_def]
  exact ⟨h, by rw [h]; norm_num⟩

/-- C4 amended: the wait uses `max(180 x duration, 600)` seconds, capped
to 1800 s only when that value exceeds 3600 s, so the timeout always
lies in `[600, 3600]` (values in `(1800, 3600]` pass through uncapped);
on expiry the child process is killed and the job is marked `failed`
with the timeout-specific error text, `completedAt = now`. -/
theorem timeout_bounds_and_timeout_failure :
    (∀ d : ℚ, 600 ≤ timeoutSeconds d ∧ timeoutSeconds d ≤ 3600) ∧
    (∀ d : ℚ, max (d * 180) 600 ≤ 3600 → timeoutSeconds d = max (d * 180) 600) ∧
    (∀ d : ℚ, 3600 < max (d * 180) 600 → timeoutSeconds d = 1800) ∧
    (∀ (env : ProcEnv) (jobId inputName : String) (j0 : JobRecord) (now : ℚ),
      env.launchFailure = none → env.outcome = .timedOut →
      (separate_audio env jobId inputName j0 now).1.status = "failed" ∧
      (separate_audio env jobId inputName j0 now).1.error =
        some (timeoutErrMsg (timeoutSeconds (get_audio_duration env.audio))) ∧
      (separate_audio env jobId inputName j0 now).1.completed_at = some now ∧
      (separate_audio env jobId inputName j0 now).2 = true) := by
  refine ⟨?_, ?_, ?_, ?_⟩
  · intro d
    simp only [timeoutSeconds]
    constructor
    · split_ifs with h
      · norm_num
      · exact le_max_right _ _
    · split_ifs with h
      · norm_num
      · exact not_lt.mp h
  · intro d h
    simp only [timeoutSeconds]
    rw [if_neg (not_lt.mpr h)]
  · intro d h
    simp only [timeoutSeconds]
    rw [if_pos h]
  · rintro ⟨audio, lf, outc, fs, burl, bpm⟩ jobId inputName j0 now hl ho
    simp only at hl ho
    subst hl
    subst ho
    refine ⟨rfl, rfl, rfl, rfl⟩

/-- Witness for C4 (amended) at the timed-out environment. -/
theorem timeout_bounds_and_timeout_failure_witness :
    (separate_audio envTimeout "j1" "song" (newJobRecord "j1" 0 "song.mp3") 100).1.status =
      "failed" ∧
    (separate_audio envTimeout "j1" "song" (newJobRecord "j1" 0 "song.mp3") 100).2 = true := by
  have h := timeout_bounds_and_timeout_failure.2.2.2 envTimeout "j1" "song"
    (newJobRecord "j1" 0 "song.mp3") 100 rfl rfl
  exact ⟨h.1, h.2.2.2⟩

/-- The job runner always leaves the job in a terminal state, whatever
the environment. -/
theorem separate_audio_terminal (env : ProcEnv) (jobId inputName : String)
    (j0 : JobRecord) (now : ℚ) :
    (separate_audio env jobId inputName j0 now).1.status = "completed" ∨
    (separate_audio env jobId inputName j0 now).1.status = "failed" := by
  obtain ⟨audio, lf, outc, fs, burl, bpm⟩ := env
  cases lf with
  | some e => exact Or.inr rfl
  | none =>
    cases outc with
    | timedOut => exact Or.inr rfl
    | exited code stderr =>
      by_cases hc : code = 0
      · subst hc
        simp only [separate_audio]
        rw [if_neg (by simp)]
        cases hr : resolveSeparatedDir inputName fs with
        | none => exact Or.inr rfl
        | some sepDir => exact Or.inl rfl
      · simp only [separate_audio]
        rw [if_pos hc]
        exact Or.inr rfl

/-- C2: statuses only move forward along
`pending -> processing -> (completed | failed)`. The runner, invoked on
the freshly created `pending` record, first writes `processing` and
finally a terminal status; recovery either keeps a status or moves
`processing` to `failed`, in index and store alike; progress updates
never change any status (the store receives the current in-memory
record); and a status lookup leaves the effective record of every id
unchanged. -/
theorem status_transitions_monotone :
    (∀ (env : ProcEnv) (jobId inputName : String) (j0 : JobRecord) (now : ℚ),
      j0.status = "pending" →
      stepOk j0.status (markProcessing j0).status ∧
      stepOk (markProcessing j0).status (separate_audio env jobId inputName j0 now).1.status) ∧
    (∀ (env : ProcEnv) (jobId inputName : String) (j0 : JobRecord) (now : ℚ),
      (separate_audio env jobId inputName j0 now).1.status = "completed" ∨
      (separate_audio env jobId inputName j0 now).1.status = "failed") ∧
    (∀ (now : ℚ) (j : JobRecord), stepOk j.status (recoverJob now j).status) ∧
    (∀ (now : ℚ) (disk : List (String × JobRecord)) (i : String) (j : JobRecord),
      findJob disk i = some j →
      findJob (load_all_jobs_from_disk now disk).1 i = some (recoverJob now j) ∧
      findJob (load_all_jobs_from_disk now disk).2 i = some (recoverJob now j)) ∧
    (∀ (mem disk : List (String × JobRecord)) (i : String) (p : Int) (m : Option String),
      (∀ i', statusAt (update_progress mem disk i p m).1 i' = statusAt mem i') ∧
      (∀ i', i' ≠ i → statusAt (update_progress mem disk i p m).2 i' = statusAt disk i') ∧
      (statusAt mem i = statusAt disk i →
        statusAt (update_progress mem disk i p m).2 i = statusAt disk i)) ∧
    (∀ (mem disk : List (String × JobRecord)) (i i' : String),
      effJob (get_job_status mem disk i).2 disk i' = effJob mem disk i') := by
  refine ⟨?_, separate_audio_terminal, ?_, ?_, ?_, ?_⟩
  · intro env jobId inputName j0 now hp
    refine ⟨Or.inr (Or.inl ⟨hp, rfl⟩), Or.inr (Or.inr ⟨rfl, ?_⟩)⟩
    exact separate_audio_terminal env jobId inputName j0 now
  · intro now j
    by_cases hs : j.status = "processing"
    · by_cases hage : (now - j.created_at) / 60 > 30
      · rw [recoverJob_processing_old now j hs hage]
        exact Or.inr (Or.inr ⟨hs, Or.inr rfl⟩)
      · rw [recoverJob_processing_recent now j hs hage]
        exact Or.inr (Or.inr ⟨hs, Or.inr rfl⟩)
    · rw [recoverJob, if_neg hs]
      exact Or.inl rfl
  · intro now disk i j hfind
    constructor <;>
      · rw [load_all_jobs_from_disk]
        simp [findJob_map, hfind]
  · intro mem disk i p m
    refine ⟨?_, ?_, ?_⟩
    · intro i'
      cases hm : findJob mem i with
      | none => simp [update_progress, hm]
      | some j =>
        by_cases hii : i' = i
        · subst hii
          simp [update_progress, hm, statusAt, findJob_putJob]
        · simp [update_progress, hm, statusAt, findJob_putJob, hii]
    · intro i' hii
      cases hm : findJob mem i with
      | none => simp [update_progress, hm]
      | some j => simp [update_progress, hm, statusAt, findJob_putJob, hii]
    · intro hagree
      cases hm : findJob mem i with
      | none => simp [update_progress, hm]
      | some j =>
        have : statusAt disk i = some j.status := by
          rw [← hagree, statusAt, hm, Option.map_some']
        rw [this]
        simp [update_progress, hm, statusAt, findJob_putJob]
  · intro mem disk i i'
    cases hm : findJob mem i with
    | some j => simp [get_job_status, hm]
    | none =>
      cases hd : findJob disk i with
      | none => simp [get_job_status, hm, hd]
      | some j =>
        simp only [get_job_status, hm, hd]
        by_cases hii : i' = i
        · subst hii
          simp [effJob, findJob_putJob, hm, hd]
        · simp [effJob, findJob_putJob, hii]

/-- Witness for C2 on a fresh pending record run through the successful
environment. -/
theorem status_transitions_monotone_witness :
    stepOk (markProcessing (newJobRecord "j1" 0 "song.mp3")).status
      (separate_audio envA "j1" "song" (newJobRecord "j1" 0 "song.mp3") 100).1.status :=
  (status_transitions_monotone.1 envA "j1" "song" (newJobRecord "j1" 0 "song.mp3") 100 rfl).2

/-- Every entry of a built tracks mapping is one of the six known stems
with its generated retrieval URL. -/
theorem buildTracks_mem (backendUrl jobId : String) (root : FSTree) (sepDir : List String)
    (q : String × String) (hq : q ∈ buildTracks backendUrl jobId root sepDir) :
    ∃ demucsFile, (demucsFile, q.1) ∈ track_mapping ∧
      q.2 = mkTrackUrl backendUrl jobId demucsFile := by
  rw [buildTracks] at hq
  rcases List.mem_filterMap.mp hq with ⟨p, hp, hf⟩
  by_cases hex : pathExists (sepDir ++ [p.1]) root
  · rw [if_pos hex] at hf
    cases hf
    exact ⟨p.1, by simpa using hp, rfl⟩
  · rw [if_neg hex] at hf
    simp at hf

/-- Evaluation of the runner on the fully successful path. -/
theorem separate_audio_completed_eval (audio : AudioEnv) (fs : FSTree)
    (burl : Option String) (bpm : Option Int) (stderr : String)
    (jobId inputName : String) (j0 : JobRecord) (now : ℚ) (sepDir : List String)
    (hr : resolveSeparatedDir inputName fs = some sepDir) :
    separate_audio ⟨audio, none, .exited 0 stderr, fs, burl, bpm⟩ jobId inputName j0 now =
      ({ j0 with
          status := "completed",
          progress := 100,
          message := some "Separation completed successfully!",
          tracks := buildTracks (rewriteBackendUrl (backendBase burl)) jobId fs sepDir,
          bpm := bpm,
          duration := some (get_audio_duration audio),
          completed_at := some now }, false) := by
  simp only [separate_audio]
  rw [if_neg (by simp)]
  rw [hr]
  rfl

/-- C3 counterexample: a run whose process exits cleanly and whose
nominal output directory exists but is empty completes the job with an
empty tracks mapping: `completed` does not imply non-empty `tracks`. -/
theorem completed_job_empty_tracks_counterexample :
    (separate_audio envNoTracks "j1" "song" (newJobRecord "j1" 0 "song.mp3") 100).1.status =
      "completed" ∧
    (separate_audio envNoTracks "j1" "song" (newJobRecord "j1" 0 "song.mp3") 100).1.tracks =
      [] := by
  constructor <;> decide

/-- C3 amended: a job that completes carries exactly the tracks built
from the stem files found in the resolved output directory (possibly
none), each value being a retrieval URL through the track-serving
endpoint for one of the six known stems; `duration` equals the estimated
duration (not necessarily positive); `progress` is 100 and `completedAt`
is set. -/
theorem completed_job_tracks_shape (env : ProcEnv) (jobId inputName : String)
    (j0 : JobRecord) (now : ℚ)
    (hc : (separate_audio env jobId inputName j0 now).1.status = "completed") :
    (∃ sepDir, resolveSeparatedDir inputName env.fs = some sepDir ∧
      (separate_audio env jobId inputName j0 now).1.tracks =
        buildTracks (rewriteBackendUrl (backendBase env.backendUrl)) jobId env.fs sepDir) ∧
    (∀ q ∈ (separate_audio env jobId inputName j0 now).1.tracks,
      ∃ demucsFile, (demucsFile, q.1) ∈ track_mapping ∧
        q.2 = mkTrackUrl (rewriteBackendUrl (backendBase env.backendUrl)) jobId demucsFile) ∧
    (separate_audio env jobId inputName j0 now).1.duration =
      some (get_audio_duration env.audio) ∧
    (separate_audio env jobId inputName j0 now).1.progress = 100 ∧
    (separate_audio env jobId inputName j0 now).1.completed_at = some now := by
  obtain ⟨audio, lf, outc, fs, burl, bpm⟩ := env
  cases lf with
  | some e => exact absurd hc (by simp [separate_audio, failedAt])
  | none =>
    cases outc with
    | timedOut => exact absurd hc (by simp [separate_audio, failedAt])
    | exited code stderr =>
      by_cases hcode : code = 0
      · subst hcode
        cases hr : resolveSeparatedDir inputName fs with
        | none =>
          refine absurd hc ?_
          simp only [separate_audio]
          rw [if_neg (by simp), hr]
          simp [failedAt]
        | some sepDir =>
          rw [separate_audio_completed_eval audio fs burl bpm stderr jobId inputName
            j0 now sepDir hr]
          refine ⟨⟨sepDir, rfl, rfl⟩, ?_, rfl, rfl, rfl⟩
          intro q hq
          exact buildTracks_mem _ jobId fs sepDir q hq
      · refine absurd hc ?_
        simp only [separate_audio]
        rw [if_pos hcode]
        simp [failedAt]

/-- Witness for C3 (amended) on the successful environment. -/
theorem completed_job_tracks_shape_witness :
    (separate_audio envA "j1" "song" (newJobRecord "j1" 0 "song.mp3") 100).1.progress =
      100 :=
  (completed_job_tracks_shape envA "j1" "song" (newJobRecord "j1" 0 "song.mp3") 100
    (by decide)).2.2.2.1

/-- One-step path lookup in a directory. -/
theorem findPath_singleton (n : String) (cs : List (String × FSTree)) :
    findPath [n] (.dir cs) = lookupChild cs n := by
  cases h : lookupChild cs n <;> simp [findPath, h]

/-- Unfolding of `childDirs` over a leading subdirectory. -/
theorem childDirs_cons_dir (name : String) (cs2 rest : List (String × FSTree)) :
    childDirs ((name, .dir cs2) :: rest) = name :: childDirs rest := by
  simp [childDirs]

/-- Unfolding of `childDirs` over a leading plain file. -/
theorem childDirs_cons_file (name : String) (rest : List (String × FSTree)) :
    childDirs ((name, .file) :: rest) = childDirs rest := by
  simp [childDirs]

/-- A name listed among the subdirectories of a directory can be looked up. -/
theorem lookupChild_of_mem_childDirs (cs : List (String × FSTree)) (d : String)
    (hd : d ∈ childDirs cs) : ∃ t, lookupChild cs d = some t := by
  induction cs with
  | nil => simp [childDirs] at hd
  | cons p rest ih =>
    obtain ⟨name, t⟩ := p
    by_cases hn : name = d
    · exact ⟨t, by simp [lookupChild, hn]⟩
    · have hd' : d ∈ childDirs rest := by
        cases t with
        | file => rw [childDirs_cons_file] at hd; exact hd
        | dir cs2 =>
          rw [childDirs_cons_dir] at hd
          rcases List.mem_cons.mp hd with h | h
          · exact absurd h.symm hn
          · exact h
      rcases ih hd' with ⟨t', ht'⟩
      exact ⟨t', by simp [lookupChild, hn, ht']⟩

/-- A subdirectory reported under a resolved directory exists as a path
from the root. -/
theorem pathExists_child (rootName d : String) (root : FSTree)
    (cs : List (String × FSTree)) (h : findPath [rootName] root = some (.dir cs))
    (hd : d ∈ childDirs cs) : pathExists [rootName, d] root = true := by
  cases root with
  | file => simp [findPath] at h
  | dir rcs =>
    rw [findPath_singleton] at h
    rcases lookupChild_of_mem_childDirs cs d hd with ⟨t, ht⟩
    simp [pathExists, findPath, h, findPath_singleton, ht]

/-- The final existence check commutes with the alternative scan: under a
non-existing nominal path, closing the scan of the code agrees with the
amended scan. -/
theorem scanAlts_final (root : FSTree) (nominal : List String)
    (hn : pathExists nominal root = false) (alts : List String) :
    finalizeSep root (scanAlts root nominal alts) = altScanAmended root alts := by
  induction alts with
  | nil => simp [scanAlts, altScanAmended, finalizeSep, hn]
  | cons name rest ih =>
    cases hf : findPath [name] root with
    | none => simpa [scanAlts, altScanAmended, hf] using ih
    | some t =>
      cases t with
      | file => simp [scanAlts, altScanAmended, hf, finalizeSep]
      | dir cs =>
        cases hc : childDirs cs with
        | nil => simpa [scanAlts, altScanAmended, hf, hc] using ih
        | cons d ds =>
          have hex : pathExists [name, d] root = true :=
            pathExists_child name d root cs hf (by rw [hc]; exact List.mem_cons_self d ds)
          simp [scanAlts, altScanAmended, hf, hc, finalizeSep, hex]

/-- The resolution algorithm of the code equals the amended algorithm:
nominal path, else first subdirectory of the model root, else first
alternative model directory with at least one subdirectory, else
failure. -/
theorem resolve_eq_amended (inputName : String) (root : FSTree) :
    resolveSeparatedDir inputName root = resolveAmendedC5 inputName root := by
  rw [resolveSeparatedDir, resolveAmendedC5]
  by_cases h1 : pathExists ["htdemucs_6s", inputName] root
  · simp [h1, finalizeSep]
  · have h1b : pathExists ["htdemucs_6s", inputName] root = false :=
      Bool.not_eq_true _ ▸ eq_false_of_ne_true h1
    rw [if_neg h1, if_neg h1]
    cases h2 : findPath ["htdemucs_6s"] root with
    | none => exact scanAlts_final root _ h1b modelDirNames
    | some t =>
      cases t with
      | file => rfl
      | dir cs =>
        cases hc : childDirs cs with
        | nil => simp [hc, finalizeSep, h1b]
        | cons d ds =>
          have hex : pathExists ["htdemucs_6s", d] root = true :=
            pathExists_child "htdemucs_6s" d root cs h2
              (by rw [hc]; exact List.mem_cons_self d ds)
          simp [hc, finalizeSep, hex]

/-- C5 counterexample: with only the alternative directory `htdemucs`
present, holding two subdirectories, the code resolves to the first
subdirectory, while the claimed algorithm (first alternative with
exactly one subdirectory) resolves nothing. -/
theorem output_dir_resolution_spec_mismatch :
    resolveSeparatedDir "song" fsTwoSubdirs = some ["htdemucs", "songA"] ∧
    resolveSpecC5 "song" fsTwoSubdirs = none ∧
    resolveSeparatedDir "song" fsTwoSubdirs ≠ resolveSpecC5 "song" fsTwoSubdirs := by
  refine ⟨?_, ?_, ?_⟩ <;> decide

/-- C5 amended: resolution follows the nominal path; if absent, the
first subdirectory under the model root; if the model root is missing,
the first alternative model directory with at least one subdirectory,
taking its first subdirectory; otherwise the job fails hard with status
`failed`. -/
theorem output_dir_resolution_algorithm :
    (∀ (inputName : String) (root : FSTree),
      resolveSeparatedDir inputName root = resolveAmendedC5 inputName root) ∧
    (∀ (env : ProcEnv) (jobId inputName : String) (j0 : JobRecord) (now : ℚ)
      (stderr : String),
      env.launchFailure = none → env.outcome = .exited 0 stderr →
      resolveSeparatedDir inputName env.fs = none →
      (separate_audio env jobId inputName j0 now).1.status = "failed" ∧
      (separate_audio env jobId inputName j0 now).1.error =
        some "Separated files not found") := by
  refine ⟨resolve_eq_amended, ?_⟩
  rintro ⟨audio, lf, outc, fs, burl, bpm⟩ jobId inputName j0 now stderr hl ho hr
  simp only at hl ho hr
  subst hl
  subst ho
  constructor <;>
    · simp only [separate_audio]
      rw [if_neg (by simp), hr]
      rfl

/-- Witness for C5 (amended): an empty output tree fails the job. -/
theorem output_dir_resolution_algorithm_witness :
    (separate_audio envNoOutput "j1" "song" (newJobRecord "j1" 0 "song.mp3") 100).1.status =
      "failed" :=
  (output_dir_resolution_algorithm.2 envNoOutput "j1" "song"
    (newJobRecord "j1" 0 "song.mp3") 100 "" rfl rfl (by decide)).1
